import Mathlib

/-!
Verification of the finite-category core of the CatColab `catlog` crate:
morphisms and finite categories (src/catlog/src/one/fin_category.rs), the
skeletal finite set (src/catlog/src/zero/set.rs), and the standard theory
`th_signed_category` (src/catlog/src/stdlib/theories.rs).

The supporting types `HashGraph`, `HashColumn`, `Path` and
`DiscreteDblTheory` live in repository files that are not part of the staged
sources; they are modelled from the specification, as noted on each
definition.
-/

namespace CatColab

/-- Morphism in a finite category: `FinHom` from
src/catlog/src/one/fin_category.rs. Either the identity morphism on an
object or a generating morphism of the finite category. -/
inductive FinHom (V E : Type) where
  | Id : V → FinHom V E
  | Generator : E → FinHom V E
  deriving DecidableEq, Repr

/-- The two fatal failures of `FinCategory::compose2` in
src/catlog/src/one/fin_category.rs: the `assert!` that (co)domains be equal,
and the `.expect` on the composition-table lookup. -/
inductive ComposeErr where
  | TypeMismatch
  | MissingComposite
  deriving DecidableEq, Repr

/-- Modelled from the spec: the generating graph of a finite category
(`HashGraph` of one/graph.rs, whose source file is not among the staged
sources). Per the spec's data model, a graph is a finite vertex set and a
finite edge set, each edge carrying a source vertex and a target vertex.
Each edge is stored together with its source and target; accessors return
`none` for an absent edge, modelling that the Rust accessors may only be
called on edges that exist. -/
structure HashGraph (V E : Type) where
  vertices : List V
  edges : List (E × V × V)

variable {V E : Type} [DecidableEq V] [DecidableEq E]

namespace HashGraph

/-- Does the graph have this vertex? -/
def has_vertex (g : HashGraph V E) (v : V) : Bool :=
  decide (v ∈ g.vertices)

/-- The stored record of an edge: the edge with its source and target. -/
def findEdge (g : HashGraph V E) (e : E) : Option (E × V × V) :=
  g.edges.find? fun t => decide (t.1 = e)

/-- Does the graph have this edge? -/
def has_edge (g : HashGraph V E) (e : E) : Bool :=
  (g.findEdge e).isSome

/-- Source vertex of an edge, `none` when the edge is absent. -/
def src (g : HashGraph V E) (e : E) : Option V :=
  (g.findEdge e).map fun t => t.2.1

/-- Target vertex of an edge, `none` when the edge is absent. -/
def tgt (g : HashGraph V E) (e : E) : Option V :=
  (g.findEdge e).map fun t => t.2.2

/-- Adds a vertex, returning whether it is new. -/
def add_vertex (g : HashGraph V E) (v : V) : Bool × HashGraph V E :=
  if v ∈ g.vertices then (false, g)
  else (true, { g with vertices := g.vertices ++ [v] })

/-- Adds several vertices. -/
def add_vertices (g : HashGraph V E) (vs : List V) : HashGraph V E :=
  vs.foldl (fun g v => (g.add_vertex v).2) g

/-- Adds an edge with the given source and target, returning whether it is
new. The spec permits source/target vertices that are not yet in the graph. -/
def add_edge (g : HashGraph V E) (e : E) (s t : V) : Bool × HashGraph V E :=
  if g.has_edge e then (false, g)
  else (true, { g with edges := g.edges ++ [(e, s, t)] })

/-- Edges whose recorded source is `x`. -/
def out_edges (g : HashGraph V E) (x : V) : List (E × V × V) :=
  g.edges.filter fun t => decide (t.2.1 = x)

/-- Edges whose recorded target is `x`. -/
def in_edges (g : HashGraph V E) (x : V) : List (E × V × V) :=
  g.edges.filter fun t => decide (t.2.2 = x)

end HashGraph

/-- Modelled from the spec: `HashColumn` of zero/column.rs (not among the
staged sources), the partial mapping backing the composition table. `set`
silently overwrites any previous entry for that key; `apply` is partial
lookup. -/
structure HashColumn (K A : Type) where
  entries : List (K × A)

/-- Partial lookup in the column. -/
def HashColumn.apply {K A : Type} [DecidableEq K] (m : HashColumn K A) (k : K) : Option A :=
  (m.entries.find? fun p => decide (p.1 = k)).map fun p => p.2

/-- Sets the value at a key, silently overwriting any previous entry. -/
def HashColumn.set {K A : Type} [DecidableEq K] (m : HashColumn K A) (k : K) (a : A) :
    HashColumn K A :=
  ⟨(k, a) :: m.entries.filter fun p => !decide (p.1 = k)⟩

/-- Modelled from the spec: `Path` of one/path.rs (not among the staged
sources). A path is either the identity path at an object or a non-empty
ordered sequence of morphisms; the non-empty sequence is a head plus a tail,
mirroring the `NonEmpty` list the source uses. -/
inductive Path (V Hom : Type) where
  | Id : V → Path V Hom
  | Seq : Hom → List Hom → Path V Hom
  deriving DecidableEq, Repr

/-- `FinCategory` from src/catlog/src/one/fin_category.rs: a generating
graph together with a composition table on ordered pairs of morphism
generators. -/
structure FinCategory (V E : Type) where
  generators : HashGraph V E
  compose_map : HashColumn (E × E) (FinHom V E)

namespace FinCategory

/-- The default finite category: empty graph, empty composition table. -/
def empty : FinCategory V E :=
  ⟨⟨[], []⟩, ⟨[]⟩⟩

/-- Adds an object generator, returning whether it is new. -/
def add_ob_generator (C : FinCategory V E) (v : V) : Bool × FinCategory V E :=
  let p := C.generators.add_vertex v
  (p.1, { C with generators := p.2 })

/-- Adds multiple object generators. -/
def add_ob_generators (C : FinCategory V E) (vs : List V) : FinCategory V E :=
  { C with generators := C.generators.add_vertices vs }

/-- Adds a morphism generator, returning whether it is new. -/
def add_hom_generator (C : FinCategory V E) (e : E) (d c : V) : Bool × FinCategory V E :=
  let p := C.generators.add_edge e d c
  (p.1, { C with generators := p.2 })

/-- Sets the value of a binary composite. -/
def set_composite (C : FinCategory V E) (d e : E) (f : FinHom V E) : FinCategory V E :=
  { C with compose_map := C.compose_map.set (d, e) f }

/-- Does the category have this object? -/
def has_ob (C : FinCategory V E) (x : V) : Bool :=
  C.generators.has_vertex x

/-- Does the category have this morphism? -/
def has_hom (C : FinCategory V E) : FinHom V E → Bool
  | .Id v => C.generators.has_vertex v
  | .Generator e => C.generators.has_edge e

/-- Domain of a morphism: the object itself for an identity, the recorded
source for a generator (`none` when the generator is absent, where the Rust
graph accessor would be unusable). -/
def dom (C : FinCategory V E) : FinHom V E → Option V
  | .Id v => some v
  | .Generator e => C.generators.src e

/-- Codomain of a morphism, dually to `dom`. -/
def cod (C : FinCategory V E) : FinHom V E → Option V
  | .Id v => some v
  | .Generator e => C.generators.tgt e

/-- The identity morphism on an object; no existence check is performed. -/
def id (_C : FinCategory V E) (x : V) : FinHom V E :=
  .Id x

/-- Binary composition, with the two panics of the Rust source reified as
errors: the `assert!` on equal (co)domains becomes `TypeMismatch` and the
`.expect` on the table lookup becomes `MissingComposite`. The match arms are
in the source's order: a left identity is absorbed first, then a right
identity, and only a generator pair reaches the assertion and the table. -/
def compose2 (C : FinCategory V E) : FinHom V E → FinHom V E → Except ComposeErr (FinHom V E)
  | .Id _, g => .ok g
  | f, .Id _ => .ok f
  | .Generator d, .Generator e =>
    if C.generators.tgt d = C.generators.src e then
      match C.compose_map.apply (d, e) with
      | some h => .ok h
      | none => .error .MissingComposite
    else
      .error .TypeMismatch

/-- Composition of a path: `id` for an identity path, and for a sequence the
left fold of `compose2` over the tail starting from the head, failures
propagating as the Rust panics would. -/
def compose (C : FinCategory V E) : Path V (FinHom V E) → Except ComposeErr (FinHom V E)
  | .Id x => .ok (C.id x)
  | .Seq head tail => tail.foldlM (fun f g => C.compose2 f g) head

/-- Is this object a generator? -/
def has_ob_generator (C : FinCategory V E) (x : V) : Bool :=
  C.generators.has_vertex x

/-- Is this morphism a generator? Identities never are. -/
def has_hom_generator (C : FinCategory V E) : FinHom V E → Bool
  | .Id _ => false
  | .Generator e => C.generators.has_edge e

/-- The object generators. -/
def ob_generators (C : FinCategory V E) : List V :=
  C.generators.vertices

/-- The morphism generators, each edge wrapped as a `Generator` morphism. -/
def hom_generators (C : FinCategory V E) : List (FinHom V E) :=
  C.generators.edges.map fun t => .Generator t.1

/-- Generators whose domain is `x`. -/
def generators_with_dom (C : FinCategory V E) (x : V) : List (FinHom V E) :=
  (C.generators.out_edges x).map fun t => .Generator t.1

/-- Generators whose codomain is `x`. -/
def generators_with_cod (C : FinCategory V E) (x : V) : List (FinHom V E) :=
  (C.generators.in_edges x).map fun t => .Generator t.1

end FinCategory

/-- `SkelFinSet` from src/catlog/src/zero/set.rs: the skeletal finite set of
size `n`, whose elements are the numbers `0..n`. -/
structure SkelFinSet where
  n : Nat

namespace SkelFinSet

/-- Create a skeletal finite set of the given size. -/
def new (n : Nat) : SkelFinSet :=
  ⟨n⟩

/-- Adds the (unique possible) next element, returning it with the new
state. -/
def insert (s : SkelFinSet) : Nat × SkelFinSet :=
  (s.n, ⟨s.n + 1⟩)

/-- Adds the next `k` elements, returning the assigned range `start..stop`
as a (start, stop) pair, with the new state. -/
def extend (s : SkelFinSet) (k : Nat) : (Nat × Nat) × SkelFinSet :=
  ((s.n, s.n + k), ⟨s.n + k⟩)

/-- Membership: exactly the numbers below the size. -/
def contains (s : SkelFinSet) (x : Nat) : Bool :=
  decide (x < s.n)

/-- The elements as a list, `0` up to `n` excluded. -/
def iter (s : SkelFinSet) : List Nat :=
  List.range s.n

/-- The size of the finite set. -/
def len (s : SkelFinSet) : Nat :=
  s.n

/-- Is the set empty? -/
def is_empty (s : SkelFinSet) : Bool :=
  decide (s.len = 0)

end SkelFinSet

/-- Modelled from the spec: `DiscreteDblTheory` of dbl/theory.rs (not among
the staged sources) wraps one finite category; its basic object and morphism
types delegate to the category's generators. -/
structure DiscreteDblTheory (V E : Type) where
  cat : FinCategory V E

/-- Basic object types: the object generators of the wrapped category. -/
def DiscreteDblTheory.basic_ob_types (T : DiscreteDblTheory V E) : List V :=
  T.cat.ob_generators

/-- Basic morphism types: the morphism generators of the wrapped category. -/
def DiscreteDblTheory.basic_mor_types (T : DiscreteDblTheory V E) : List (FinHom V E) :=
  T.cat.hom_generators

/-- `th_signed_category` from src/catlog/src/stdlib/theories.rs, the theory
of signed categories, with the interned `Ustr` strings modelled as `String`:
one object generator, one endo-generator `negative` on it, and the composite
of `negative` with itself set to the identity. -/
def th_signed_category : DiscreteDblTheory String String :=
  let sgn : FinCategory String String := FinCategory.empty
  let sgn := (sgn.add_ob_generator "object").2
  let sgn := (sgn.add_hom_generator "negative" "object" "object").2
  let sgn := sgn.set_composite "negative" "negative" (.Id "object")
  ⟨sgn⟩

/-- The reflexive-graph schema category built by the `fin_category` test in
src/catlog/src/one/fin_category.rs: objects `V`, `E`; generators `s, t : E →
V` and `i : E → E`; composites `i ∘ i = Id(E)`, `i ∘ s = t`, `i ∘ t = s`. -/
def sch_sgraph : FinCategory Char Char :=
  let c : FinCategory Char Char := FinCategory.empty
  let c := c.add_ob_generators ['V', 'E']
  let c := (c.add_hom_generator 's' 'E' 'V').2
  let c := (c.add_hom_generator 't' 'E' 'V').2
  let c := (c.add_hom_generator 'i' 'E' 'E').2
  let c := c.set_composite 'i' 'i' (.Id 'E')
  let c := c.set_composite 'i' 's' (.Generator 't')
  let c := c.set_composite 'i' 't' (.Generator 's')
  c

/-- A category with objects `0`, `1` and a single generator `7 : 1 → 1`,
used to probe identity absorption against a mismatched identity. -/
def obPairCat : FinCategory Nat Nat :=
  let c : FinCategory Nat Nat := FinCategory.empty
  let c := c.add_ob_generators [0, 1]
  let c := (c.add_hom_generator 7 1 1).2
  c

/-- A one-object category whose composition table was deliberately
registered non-associatively; `set_composite` accepts it without any
check. -/
def nonAssocCat : FinCategory Nat Nat :=
  let c : FinCategory Nat Nat := FinCategory.empty
  let c := (c.add_ob_generator 0).2
  let c := (c.add_hom_generator 1 0 0).2
  let c := (c.add_hom_generator 2 0 0).2
  let c := (c.add_hom_generator 3 0 0).2
  let c := c.set_composite 1 2 (.Generator 3)
  let c := c.set_composite 3 3 (.Generator 1)
  let c := c.set_composite 2 3 (.Generator 1)
  let c := c.set_composite 1 1 (.Generator 2)
  c

/-- Decidable equality of `Except` results, used to state and decide
computations on composition outcomes. -/
instance {eps alpha : Type} [DecidableEq eps] [DecidableEq alpha] :
    DecidableEq (Except eps alpha) := fun a b =>
  match a, b with
  | .ok x, .ok y =>
    if h : x = y then .isTrue (h ▸ rfl) else .isFalse fun hc => h (Except.ok.inj hc)
  | .ok _, .error _ => .isFalse fun hc => Except.noConfusion hc
  | .error _, .ok _ => .isFalse fun hc => Except.noConfusion hc
  | .error u, .error w =>
    if h : u = w then .isTrue (h ▸ rfl) else .isFalse fun hc => h (Except.error.inj hc)

/-- Claim C1, counterexample: the claim also asserts `compose2(f, Id(v)) = f`
for every morphism value `f`, but when `f` is itself an identity at a
different object the source's first match arm wins and the result is the
second argument, not `f`: `compose2(Id(0), Id(1)) = Id(1) ≠ Id(0)`. -/
theorem c1_right_identity_cex :
    obPairCat.compose2 (FinHom.Id 0) (FinHom.Id 1) = .ok (.Id 1) ∧
      (FinHom.Id 1 : FinHom Nat Nat) ≠ FinHom.Id 0 :=
  ⟨rfl, by decide⟩

/-- Claim C1, amended: `compose2` absorbs identities unconditionally, with no
check on the identity's carried object — `compose2(Id(v), g) = g` for every
morphism `g`, and `compose2(f, Id(v)) = f` for every generator morphism `f`;
when both arguments are identities the left rule applies first, so
`compose2(Id(u), Id(v)) = Id(v)`. -/
theorem c1_identity_absorption (C : FinCategory V E) (v : V) :
    (∀ g : FinHom V E, C.compose2 (.Id v) g = .ok g) ∧
      (∀ e : E, C.compose2 (.Generator e) (.Id v) = .ok (.Generator e)) ∧
      (∀ u : V, C.compose2 (.Id u) (.Id v) = .ok (.Id v)) := by
  refine ⟨fun g => ?_, fun e => rfl, fun u => rfl⟩
  cases g <;> rfl

/-- Claim C2: `compose(Path::Id(x))` returns `id(x) = Id(x)` for every object
value `x`, and on a non-empty sequence `compose` is the left fold of
`compose2` head-to-tail: a singleton path returns its head and appending one
morphism `g` to the sequence postcomposes the previous result with `g`. -/
theorem c2_compose_left_fold :
    (∀ (C : FinCategory V E) (x : V), C.compose (.Id x) = .ok (C.id x) ∧ C.id x = .Id x) ∧
      (∀ (C : FinCategory V E) (h : FinHom V E), C.compose (.Seq h []) = .ok h) ∧
      (∀ (C : FinCategory V E) (h : FinHom V E) (t : List (FinHom V E)) (g : FinHom V E),
        C.compose (.Seq h (t ++ [g])) =
          (C.compose (.Seq h t)).bind fun f => C.compose2 f g) := by
  refine ⟨fun C x => ⟨rfl, rfl⟩, fun C h => rfl, fun C h t g => ?_⟩
  show List.foldlM _ h (t ++ [g]) =
    (List.foldlM (fun f g => C.compose2 f g) h t).bind fun f => C.compose2 f g
  rw [List.foldlM_append]
  rcases List.foldlM (fun f g => C.compose2 f g) h t with err | f
  · rfl
  · show (C.compose2 f g).bind (fun s => pure s) = C.compose2 f g
    rcases C.compose2 f g with e2 | f2 <;> rfl

/-- Claim C3, counterexample: the claim's case (1) covers any two morphisms
whose codomain and domain do not match, but composing a mismatched identity
with a generator does not fail — both operands are held by the category, the
codomain of `Id(0)` differs from the domain of the generator `7 : 1 → 1`,
and `compose2` still returns the generator. -/
theorem c3_identity_mismatch_cex :
    obPairCat.has_hom (.Id 0) = true ∧ obPairCat.has_hom (.Generator 7) = true ∧
      obPairCat.cod (.Id 0) ≠ obPairCat.dom (.Generator 7) ∧
      obPairCat.compose2 (.Id 0) (.Generator 7) = .ok (.Generator 7) :=
  ⟨by decide, by decide, by decide, rfl⟩

/-- Claim C3, amended: for morphisms held by the category, a composition call
fails in exactly two cases, both requiring that the two operands be
generator morphisms: it signals `TypeMismatch` exactly when two generators
with unequal codomain/domain are composed, and `MissingComposite` exactly
when a generator pair with matching codomain/domain is absent from the
composition table; compositions in which either operand is an identity never
fail, and the remaining operations are total functions. -/
theorem c3_compose2_failure_cases (C : FinCategory V E) (f g : FinHom V E)
    (hf : C.has_hom f = true) (hg : C.has_hom g = true) :
    (C.compose2 f g = .error .TypeMismatch ↔
      (∃ d, f = .Generator d) ∧ (∃ e, g = .Generator e) ∧ C.cod f ≠ C.dom g) ∧
    (C.compose2 f g = .error .MissingComposite ↔
      ∃ d e, f = .Generator d ∧ g = .Generator e ∧ C.cod f = C.dom g ∧
        C.compose_map.apply (d, e) = none) := by
  rcases f with v | d <;> rcases g with w | e
  · simp [FinCategory.compose2]
  · simp [FinCategory.compose2]
  · simp [FinCategory.compose2]
  · by_cases hmatch : C.generators.tgt d = C.generators.src e
    · rcases happ : C.compose_map.apply (d, e) with _ | h
      · simp [FinCategory.compose2, FinCategory.cod, FinCategory.dom, hmatch, happ]
      · simp [FinCategory.compose2, FinCategory.cod, FinCategory.dom, hmatch, happ]
    · simp [FinCategory.compose2, FinCategory.cod, FinCategory.dom, hmatch]

/-- Claim C3, witness: in the reflexive-graph schema category the generators
`s` and `t` both target `V` while sourcing from `E`, so composing `s` with
`t` is a codomain/domain mismatch and fails with `TypeMismatch`. -/
theorem c3_compose2_failure_cases_witness :
    sch_sgraph.has_hom (.Generator 's') = true ∧
    sch_sgraph.has_hom (.Generator 't') = true ∧
    sch_sgraph.compose2 (.Generator 's') (.Generator 't') = .error .TypeMismatch :=
  ⟨by decide, by decide, by
    have h := c3_compose2_failure_cases sch_sgraph (.Generator 's') (.Generator 't')
      (by decide) (by decide)
    exact h.1.mpr ⟨⟨'s', rfl⟩, ⟨'t', rfl⟩, by decide⟩⟩

/-- Claim C4, counterexample: `set_composite` performs no associativity
check, so a finite category whose table defines both association orders with
different results is constructible: in `nonAssocCat` the generators `1`, `2`,
`3` are composable, both sides are defined by the table, and
`(1∘2)∘3 = 1` while `1∘(2∘3) = 2`. -/
theorem c4_assoc_cex :
    nonAssocCat.cod (.Generator 1) = nonAssocCat.dom (.Generator 2) ∧
    nonAssocCat.cod (.Generator 2) = nonAssocCat.dom (.Generator 3) ∧
    (nonAssocCat.compose2 (.Generator 1) (.Generator 2)).bind
        (fun h => nonAssocCat.compose2 h (.Generator 3)) = .ok (.Generator 1) ∧
    (nonAssocCat.compose2 (.Generator 2) (.Generator 3)).bind
        (fun h => nonAssocCat.compose2 (.Generator 1) h) = .ok (.Generator 2) ∧
    (FinHom.Generator 1 : FinHom Nat Nat) ≠ .Generator 2 :=
  ⟨rfl, rfl, rfl, rfl, by decide⟩

/-- Claim C4, amended: associativity of the table is the builder's
responsibility, not enforced by the code; for a correctly built category —
here the reflexive-graph schema category of the source's test — the two
association orders agree on every triple of generators whenever both sides
are defined. -/
theorem c4_assoc_sch_sgraph :
    (['s', 't', 'i'].all fun d =>
      ['s', 't', 'i'].all fun e =>
        ['s', 't', 'i'].all fun g =>
          let lhs := (sch_sgraph.compose2 (.Generator d) (.Generator e)).bind
            fun h => sch_sgraph.compose2 h (.Generator g)
          let rhs := (sch_sgraph.compose2 (.Generator e) (.Generator g)).bind
            fun h => sch_sgraph.compose2 (.Generator d) h
          !(lhs.isOk && rhs.isOk) || decide (lhs = rhs)) = true := by decide

/-- Claim C5: for every morphism `f` held by the category, its domain and
codomain are defined and `compose2(id(dom(f)), f) = f` and
`compose2(f, id(cod(f))) = f` — the left and right identity laws. -/
theorem c5_identity_laws (C : FinCategory V E) (f : FinHom V E)
    (hf : C.has_hom f = true) :
    ∃ u v, C.dom f = some u ∧ C.cod f = some v ∧
      C.compose2 (C.id u) f = .ok f ∧ C.compose2 f (C.id v) = .ok f := by
  rcases f with w | e
  · exact ⟨w, w, rfl, rfl, rfl, rfl⟩
  · have h : (C.generators.findEdge e).isSome = true := hf
    rcases ht : C.generators.findEdge e with _ | t
    · rw [ht] at h; exact absurd h (by simp)
    · exact ⟨t.2.1, t.2.2,
        by simp [FinCategory.dom, HashGraph.src, ht],
        by simp [FinCategory.cod, HashGraph.tgt, ht], rfl, rfl⟩

/-- Claim C5, witness: the identity laws at the generator `s : E → V` of the
reflexive-graph schema category. -/
theorem c5_identity_laws_witness :
    ∃ u v, sch_sgraph.dom (.Generator 's') = some u ∧
      sch_sgraph.cod (.Generator 's') = some v ∧
      sch_sgraph.compose2 (sch_sgraph.id u) (.Generator 's') = .ok (.Generator 's') ∧
      sch_sgraph.compose2 (.Generator 's') (sch_sgraph.id v) = .ok (.Generator 's') :=
  c5_identity_laws sch_sgraph (.Generator 's') (by decide)

/-- Claim C6: in the reflexive-graph schema category with composites
`i∘i = Id(E)`, `i∘s = t`, `i∘t = s`, composing `i` with `i` yields `Id(E)`,
and the path `[i, Id(E), i, i, s]` composes to the generator `t`. -/
theorem c6_reflexive_graph_scenario :
    sch_sgraph.compose2 (.Generator 'i') (.Generator 'i') = .ok (.Id 'E') ∧
    sch_sgraph.compose (.Seq (.Generator 'i')
      [.Id 'E', .Generator 'i', .Generator 'i', .Generator 's']) = .ok (.Generator 't') :=
  ⟨rfl, rfl⟩

/-- Claim C7: every morphism returned by `hom_generators()` satisfies
`has_hom_generator` and `has_hom`; `has_hom_generator(Id(v))` is false for
every object value `v`, while `has_hom(Id(v))` agrees with `has_ob(v)`. -/
theorem c7_generators_round_trip (C : FinCategory V E) :
    (∀ m ∈ C.hom_generators, C.has_hom_generator m = true ∧ C.has_hom m = true) ∧
    (∀ v : V, C.has_hom_generator (.Id v) = false) ∧
    (∀ v : V, C.has_hom (.Id v) = C.has_ob v) := by
  refine ⟨?_, fun v => rfl, fun v => rfl⟩
  intro m hm
  rcases List.mem_map.mp hm with ⟨t, ht, rfl⟩
  have hedge : C.generators.has_edge t.1 = true :=
    List.find?_isSome.mpr ⟨t, ht, by simp⟩
  exact ⟨hedge, hedge⟩

/-- Claim C8: `insert` returns the pre-insert size and grows the set by one;
`extend(k)` returns the contiguous range from the old size to the old size
plus `k` and grows the set by `k`; `contains(x)` holds iff `x` is below the
size; the size never decreases; and the concrete scenario — three inserts
from the empty set give size `3`, `contains(2)`, not `contains(3)`, and the
elements sum to `3`. -/
theorem c8_skel_fin_set :
    (∀ s : SkelFinSet, (s.insert).1 = s.len ∧ (s.insert).2.len = s.len + 1) ∧
    (∀ (s : SkelFinSet) (k : Nat), (s.extend k).1 = (s.len, s.len + k) ∧
      (s.extend k).2.len = s.len + k) ∧
    (∀ (s : SkelFinSet) (x : Nat), s.contains x = true ↔ x < s.len) ∧
    (∀ (s : SkelFinSet) (k : Nat), s.len ≤ (s.insert).2.len ∧ s.len ≤ (s.extend k).2.len) ∧
    ((((SkelFinSet.new 0).insert.2.insert).2.insert).2.len = 3 ∧
      (((SkelFinSet.new 0).insert.2.insert).2.insert).2.contains 2 = true ∧
      (((SkelFinSet.new 0).insert.2.insert).2.insert).2.contains 3 = false ∧
      (((SkelFinSet.new 0).insert.2.insert).2.insert).2.iter.sum = 3) := by
  refine ⟨fun s => ⟨rfl, rfl⟩, fun s k => ⟨rfl, rfl⟩,
    fun s x => by simp [SkelFinSet.contains, SkelFinSet.len],
    fun s k => ⟨Nat.le_succ _, Nat.le_add_right _ _⟩, by decide, by decide, by decide, by decide⟩

/-- Claim C9: the theory of signed categories has exactly one basic morphism
type, the generator `negative`, and composing `negative` with itself in the
underlying category yields the identity on the unique object type. -/
theorem c9_signed_category :
    th_signed_category.basic_mor_types = [.Generator "negative"] ∧
    th_signed_category.basic_mor_types.length = 1 ∧
    th_signed_category.cat.compose2 (.Generator "negative") (.Generator "negative") =
      .ok (.Id "object") :=
  ⟨rfl, rfl, rfl⟩

/-- Claim C10: composing a singleton path returns its only morphism
unchanged for every morphism value, belonging to the category or not — the
fold over the empty tail performs no table lookup or check, so it never
fails. -/
theorem c10_singleton_path (C : FinCategory V E) (f : FinHom V E) :
    C.compose (.Seq f []) = .ok f :=
  rfl

end CatColab
